import Mathlib

/-!
Shallow embedding of the `@do-manager/admin-hooks` module: a Durable Object
admin layer consisting of a timing-safe credential comparator, a freeze-gated
key/value storage access layer, and an HTTP-style admin router
(`handleAdminRequest`).  Storage is modelled as a finite association of string
keys to JS-like values plus an optional alarm timestamp; the model covers the
key-value backend (a storage handle without the optional SQL capability).
Asynchronous effects in the source are sequential per request, so operations
are embedded as pure state-passing functions; a thrown `Error` is embedded as
`Except.error` carrying the error's message string, and every throwing path in
the source throws before its first mutating storage call, so an `error` result
leaves the caller's storage unchanged.
-/

namespace AdminHooks

/-- JS-like storage values (`unknown` in the source).  `vUndef` models
`undefined`. -/
inductive Value where
  | vUndef
  | vNull
  | vBool (b : Bool)
  | vNum (n : Int)
  | vStr (s : String)
  deriving DecidableEq, Repr

/-- JS truthiness of a value. -/
def Value.truthy : Value → Bool
  | .vUndef => false
  | .vNull => false
  | .vBool b => b
  | .vNum n => n != 0
  | .vStr s => s != ""

/-- JS truthiness where `none` models a missing value (`undefined`). -/
def truthyOpt : Option Value → Bool
  | none => false
  | some v => v.truthy

/-- Replace the binding of `key` in place, or append it if absent
(`Map.set` semantics of the Durable Object storage map). -/
def putEntry : List (String × Value) → String → Value → List (String × Value)
  | [], key, value => [(key, value)]
  | (k, v) :: rest, key, value =>
    if k = key then (k, value) :: rest else (k, v) :: putEntry rest key value

/-- Durable Object storage state, KV backend: the key/value map plus the
optional alarm. -/
structure Storage where
  entries : List (String × Value)
  alarm : Option Int
  deriving DecidableEq, Repr

/-- A freshly cleared store. -/
def Storage.empty : Storage := ⟨[], none⟩

/-- `storage.get(key)`: `none` models `undefined`. -/
def Storage.get (s : Storage) (key : String) : Option Value :=
  s.entries.lookup key

/-- `storage.put(key, value)`. -/
def Storage.put (s : Storage) (key : String) (value : Value) : Storage :=
  { s with entries := putEntry s.entries key value }

/-- `storage.delete(key)`. -/
def Storage.del (s : Storage) (key : String) : Storage :=
  { s with entries := s.entries.filter (fun p => p.1 ≠ key) }

/-- `storage.put(entries)`: bulk write of a record, one binding at a time. -/
def Storage.putAll (s : Storage) (data : List (String × Value)) : Storage :=
  data.foldl (fun acc p => acc.put p.1 p.2) s

/-- A storage state is well-formed when its keys are distinct (it models a
`Map`, which cannot hold a key twice). -/
def Storage.Wf (s : Storage) : Prop :=
  (s.entries.map Prod.fst).Nodup

instance (s : Storage) : Decidable s.Wf := by
  unfold Storage.Wf; infer_instance

/-- Special storage key used to mark an instance as frozen (read-only). -/
def FROZEN_STORAGE_KEY : String := "__do_manager_frozen"

/-- The companion reserved key `` `${FROZEN_STORAGE_KEY}_at` `` holding the
freeze timestamp. -/
def FROZEN_AT_KEY : String := FROZEN_STORAGE_KEY ++ "_at"

/-- The frozen flag read performed by the mutation guards:
`await this.state.storage.get<boolean>(FROZEN_STORAGE_KEY)` followed by a JS
truthiness test. -/
def isFrozenTruthy (s : Storage) : Bool :=
  truthyOpt (s.get FROZEN_STORAGE_KEY)

/-- Timing-safe string comparison: accumulate the bitwise OR of the XORed
character codes over the whole (equal) length. -/
def timingSafeEqual (a b : String) : Bool :=
  if a.length != b.length then false
  else
    ((a.data.zip b.data).foldl (fun r p => r ||| (p.1.toNat ^^^ p.2.toNat)) 0) == 0

/-- `adminList` on the KV backend: enumerate all stored keys. -/
def adminList (s : Storage) : List String :=
  s.entries.map Prod.fst

/-- `adminGet`: read one value; the response is `{value}` with `none` for
`undefined`. -/
def adminGet (s : Storage) (key : String) : Option Value :=
  s.get key

/-- `adminPut`: guarded write.  The guard is bypassed exactly when the key is
the frozen-flag key itself; otherwise a truthy frozen flag throws before the
write. -/
def adminPut (s : Storage) (key : String) (value : Value) :
    Except String Storage :=
  if key ≠ FROZEN_STORAGE_KEY then
    if isFrozenTruthy s then
      .error "Instance is frozen. Unfreeze before making changes."
    else
      .ok (s.put key value)
  else
    .ok (s.put key value)

/-- `adminDelete`: guarded delete, same guard and bypass as `adminPut`. -/
def adminDelete (s : Storage) (key : String) : Except String Storage :=
  if key ≠ FROZEN_STORAGE_KEY then
    if isFrozenTruthy s then
      .error "Instance is frozen. Unfreeze before making changes."
    else
      .ok (s.del key)
  else
    .ok (s.del key)

/-- `adminSql` on the KV backend: the storage handle has no SQL capability,
so the call always throws. -/
def adminSql (_query : String) : Except String Unit :=
  .error "SQL not available - this DO uses KV storage backend"

/-- `adminGetAlarm`. -/
def adminGetAlarm (s : Storage) : Option Int :=
  s.alarm

/-- `adminSetAlarm`. -/
def adminSetAlarm (s : Storage) (timestamp : Int) : Storage :=
  { s with alarm := some timestamp }

/-- `adminDeleteAlarm`. -/
def adminDeleteAlarm (s : Storage) : Storage :=
  { s with alarm := none }

/-- `adminExport` response shape `{data, exportedAt, keyCount}`. -/
structure ExportResponse where
  data : List (String × Value)
  exportedAt : String
  keyCount : Nat
  deriving DecidableEq, Repr

/-- `adminExport`: enumerate every stored key/value pair into one mapping,
capture the current timestamp and the entry count.  `now` is the
`new Date().toISOString()` value supplied by the environment. -/
def adminExport (s : Storage) (now : String) : ExportResponse :=
  { data := s.entries, exportedAt := now, keyCount := s.entries.length }

/-- `adminImport`: guarded bulk write (merge with existing).  The frozen check
happens before any write. -/
def adminImport (s : Storage) (data : List (String × Value)) :
    Except String Storage :=
  if isFrozenTruthy s then
    .error "Instance is frozen. Unfreeze before importing data."
  else
    .ok (s.putAll data)

/-- Freeze-operation response shape `{frozen, frozenAt?}`. -/
structure FreezeResponse where
  frozen : Bool
  frozenAt : Option String
  deriving DecidableEq, Repr

/-- `adminFreeze`: capture the timestamp once, write the flag and the
timestamp under the two reserved keys. -/
def adminFreeze (s : Storage) (now : String) : Storage × FreezeResponse :=
  ((s.put FROZEN_STORAGE_KEY (.vBool true)).put FROZEN_AT_KEY (.vStr now),
   { frozen := true, frozenAt := some now })

/-- `adminUnfreeze`: delete both reserved keys directly. -/
def adminUnfreeze (s : Storage) : Storage × FreezeResponse :=
  ((s.del FROZEN_STORAGE_KEY).del FROZEN_AT_KEY, { frozen := false, frozenAt := none })

/-- `adminGetFreezeStatus`: read both reserved keys, coercing the flag to a
strict boolean. -/
def adminGetFreezeStatus (s : Storage) : FreezeResponse :=
  { frozen := isFrozenTruthy s,
    frozenAt := match s.get FROZEN_AT_KEY with
      | some (.vStr t) => some t
      | _ => none }

/-! ### The admin router -/

/-- JS `String.prototype.split` with a one-character separator, over the
character list.  `split` of the empty string is `[""]`; separators at the ends
produce empty segments. -/
def jsSplit (sep : Char) : List Char → List (List Char)
  | [] => [[]]
  | c :: cs =>
    match jsSplit sep cs with
    | [] => [[c]]
    | seg :: rest => if c = sep then [] :: seg :: rest else (c :: seg) :: rest

/-- `path.split("/")` as a string operation. -/
def jsSplitSlash (s : String) : List String :=
  (jsSplit '/' s.data).map List.asString

/-- JS `path.slice(n)`. -/
def strDrop (s : String) (n : Nat) : String :=
  (s.data.drop n).asString

/-- JS `path.startsWith(prefix)`. -/
def strStartsWith (s pre : String) : Bool :=
  pre.data.isPrefixOf s.data

/-- Extract the operation selector from the request path: slice off the base
path, split into non-empty segments, and take `"/"` plus the last segment
(empty string when there is none). -/
def extractOperation (basePath path : String) : String :=
  let adminPath := strDrop path basePath.length
  let pathParts := (jsSplitSlash adminPath).filter (fun seg => seg ≠ "")
  match pathParts.getLast? with
  | some p => "/" ++ p
  | none => ""

/-- The JSON request body, after parsing, as the fields the router reads from
it.  `none` models an absent (or, for `timestamp`, non-number) field. -/
structure ReqBody where
  key : Option String := none
  value : Value := .vUndef
  query : Option String := none
  timestamp : Option Int := none
  data : Option (List (String × Value)) := none
  deriving Repr

/-- An incoming HTTP request as the router consumes it: method, URL path,
the `X-Admin-Key` header, the `key` search parameter, and the parsed body. -/
structure Request where
  method : String
  path : String
  xAdminKey : Option String := none
  queryKey : Option String := none
  body : ReqBody := {}
  deriving Repr

/-- JSON response bodies produced by the router. -/
inductive RespBody where
  | errorMsg (msg : String)
  | keysList (keys : List String)
  | getResp (value : Option Value)
  | success
  | successAlarm (timestamp : Int)
  | alarmResp (alarm : Option Int)
  | sqlOk
  | exportResp (r : ExportResponse)
  | importResp (imported : Nat)
  | freezeResp (r : FreezeResponse)
  deriving DecidableEq, Repr

/-- An HTTP response: status code and JSON body. -/
structure HResp where
  status : Nat
  body : RespBody
  deriving DecidableEq, Repr

/-- Configuration options for admin hooks (`fallback` is not consulted by
`handleAdminRequest` and is omitted). -/
structure AdminHooksOptions where
  basePath : Option String := none
  requireAuth : Bool := false
  adminKey : Option String := none
  deriving Repr

/-- `options.basePath ?? "/admin"`. -/
def basePathOf (o : AdminHooksOptions) : String :=
  o.basePath.getD "/admin"

/-- The post-authentication part of `handleAdminRequest`: the sequential
(selector, method) match chain inside the `try`, with the surrounding `catch`
turning an operation failure into a 500 `{error: message}` response.  Returns
the response and the resulting storage. -/
def routeAdmin (st : Storage) (req : Request) (operation : String)
    (now : String) : HResp × Storage :=
  if operation = "/list" ∧ req.method = "GET" then
    (⟨200, .keysList (adminList st)⟩, st)
  else if operation = "/get" ∧ req.method = "GET" then
    match req.queryKey with
    | none => (⟨400, .errorMsg "Missing key parameter"⟩, st)
    | some k =>
      if k = "" then (⟨400, .errorMsg "Missing key parameter"⟩, st)
      else (⟨200, .getResp (adminGet st k)⟩, st)
  else if operation = "/put" ∧ req.method = "POST" then
    match req.body.key with
    | none => (⟨400, .errorMsg "Missing key in body"⟩, st)
    | some k =>
      if k = "" then (⟨400, .errorMsg "Missing key in body"⟩, st)
      else
        match adminPut st k req.body.value with
        | .ok st' => (⟨200, .success⟩, st')
        | .error msg => (⟨500, .errorMsg msg⟩, st)
  else if operation = "/freeze" ∧ req.method = "PUT" then
    let (st', r) := adminFreeze st now
    (⟨200, .freezeResp r⟩, st')
  else if operation = "/freeze" ∧ req.method = "DELETE" then
    let (st', r) := adminUnfreeze st
    (⟨200, .freezeResp r⟩, st')
  else if operation = "/freeze" ∧ req.method = "GET" then
    (⟨200, .freezeResp (adminGetFreezeStatus st)⟩, st)
  else if operation = "/delete" ∧ req.method = "POST" then
    match req.body.key with
    | none => (⟨400, .errorMsg "Missing key in body"⟩, st)
    | some k =>
      if k = "" then (⟨400, .errorMsg "Missing key in body"⟩, st)
      else
        match adminDelete st k with
        | .ok st' => (⟨200, .success⟩, st')
        | .error msg => (⟨500, .errorMsg msg⟩, st)
  else if operation = "/sql" ∧ req.method = "POST" then
    match req.body.query with
    | none => (⟨400, .errorMsg "Missing query in body"⟩, st)
    | some q =>
      if q = "" then (⟨400, .errorMsg "Missing query in body"⟩, st)
      else
        match adminSql q with
        | .ok _ => (⟨200, .sqlOk⟩, st)
        | .error msg => (⟨500, .errorMsg msg⟩, st)
  else if operation = "/alarm" ∧ req.method = "GET" then
    (⟨200, .alarmResp (adminGetAlarm st)⟩, st)
  else if operation = "/alarm" ∧ req.method = "PUT" then
    match req.body.timestamp with
    | none => (⟨400, .errorMsg "Missing or invalid timestamp"⟩, st)
    | some t => (⟨200, .successAlarm t⟩, adminSetAlarm st t)
  else if operation = "/alarm" ∧ req.method = "DELETE" then
    (⟨200, .success⟩, adminDeleteAlarm st)
  else if operation = "/export" ∧ req.method = "GET" then
    (⟨200, .exportResp (adminExport st now)⟩, st)
  else if operation = "/import" ∧ req.method = "POST" then
    match req.body.data with
    | none => (⟨400, .errorMsg "Missing or invalid data object"⟩, st)
    | some d =>
      match adminImport st d with
      | .ok st' => (⟨200, .importResp d.length⟩, st')
      | .error msg => (⟨500, .errorMsg msg⟩, st)
  else
    (⟨404, .errorMsg "Unknown admin endpoint"⟩, st)

/-- `handleAdminRequest`: return `none` for non-admin paths, authenticate when
configured (length check then timing-safe comparison), then extract the
operation selector and route.  `now` is the environment-supplied current
timestamp string. -/
def handleAdminRequest (opts : AdminHooksOptions) (st : Storage)
    (req : Request) (now : String) : Option HResp × Storage :=
  let basePath := basePathOf opts
  if strStartsWith req.path basePath = false then
    (none, st)
  else
    let providedKey := req.xAdminKey.getD ""
    let expectedKey := opts.adminKey.getD ""
    if opts.requireAuth = true ∧
        (providedKey.length ≠ expectedKey.length ∨
          timingSafeEqual providedKey expectedKey = false) then
      (some ⟨401, .errorMsg "Unauthorized"⟩, st)
    else
      let (resp, st') := routeAdmin st req (extractOperation basePath req.path) now
      (some resp, st')

/-- The spec's freeze-record invariant: the frozen-at reserved key is present
if and only if the frozen reserved key holds `true`. -/
def frozenInv (s : Storage) : Bool :=
  (s.get FROZEN_AT_KEY).isSome == (s.get FROZEN_STORAGE_KEY == some (.vBool true))

/-- The fixed dispatch table: `(operation selector, HTTP method)` pairs that
match some route, in the source's match order. -/
def RouteMatch (operation method : String) : Prop :=
  (operation = "/list" ∧ method = "GET") ∨
  (operation = "/get" ∧ method = "GET") ∨
  (operation = "/put" ∧ method = "POST") ∨
  (operation = "/freeze" ∧ method = "PUT") ∨
  (operation = "/freeze" ∧ method = "DELETE") ∨
  (operation = "/freeze" ∧ method = "GET") ∨
  (operation = "/delete" ∧ method = "POST") ∨
  (operation = "/sql" ∧ method = "POST") ∨
  (operation = "/alarm" ∧ method = "GET") ∨
  (operation = "/alarm" ∧ method = "PUT") ∨
  (operation = "/alarm" ∧ method = "DELETE") ∨
  (operation = "/export" ∧ method = "GET") ∨
  (operation = "/import" ∧ method = "POST")

instance (operation method : String) : Decidable (RouteMatch operation method) := by
  unfold RouteMatch; infer_instance

/-- The authentication gate of `handleAdminRequest`: `true` when the request
is not rejected with 401 (either authentication is off, or the credential
passes the length check and the timing-safe comparison). -/
def authPasses (opts : AdminHooksOptions) (req : Request) : Bool :=
  !(opts.requireAuth &&
    ((req.xAdminKey.getD "").length != (opts.adminKey.getD "").length ||
      !timingSafeEqual (req.xAdminKey.getD "") (opts.adminKey.getD "")))


theorem lor_eq_zero_iff (a b : Nat) : a ||| b = 0 ↔ a = 0 ∧ b = 0 := by
  constructor
  · intro h
    refine ⟨Nat.zero_of_testBit_eq_false fun i => ?_,
            Nat.zero_of_testBit_eq_false fun i => ?_⟩ <;>
    · have h2 := congrArg (fun n => Nat.testBit n i) h
      simp [Nat.testBit_lor] at h2
      tauto
  · rintro ⟨rfl, rfl⟩; rfl

theorem char_eq_of_toNat_eq {c d : Char} (h : c.toNat = d.toNat) : c = d :=
  Char.ext (UInt32.ext h)

theorem foldl_lor_xor_eq_zero (l : List (Char × Char)) (r : Nat) :
    (l.foldl (fun r p => r ||| (p.1.toNat ^^^ p.2.toNat)) r = 0) ↔
      (r = 0 ∧ ∀ p ∈ l, p.1 = p.2) := by
  induction l generalizing r with
  | nil => simp
  | cons p t ih =>
    simp only [List.foldl_cons, ih, lor_eq_zero_iff, List.mem_cons]
    constructor
    · rintro ⟨⟨hr, hx⟩, ht⟩
      refine ⟨hr, fun q hq => ?_⟩
      rcases hq with rfl | hq
      · exact char_eq_of_toNat_eq (Nat.xor_eq_zero.mp hx)
      · exact ht q hq
    · rintro ⟨hr, hall⟩
      exact ⟨⟨hr, Nat.xor_eq_zero.mpr (congrArg Char.toNat (hall p (.inl rfl)))⟩,
        fun q hq => hall q (.inr hq)⟩

theorem eq_of_zip_pointwise : ∀ {l₁ l₂ : List Char}, l₁.length = l₂.length →
    (∀ p ∈ l₁.zip l₂, p.1 = p.2) → l₁ = l₂
  | [], [], _, _ => rfl
  | [], _ :: _, h, _ => by simp at h
  | _ :: _, [], h, _ => by simp at h
  | c :: t₁, d :: t₂, h, hall => by
    have h1 : c = d := hall (c, d) (by simp)
    have h2 : t₁ = t₂ := eq_of_zip_pointwise (by simpa using h)
      (fun p hp => hall p (by simp [hp]))
    rw [h1, h2]

theorem zip_self_pointwise : ∀ (l : List Char), ∀ p ∈ l.zip l, p.1 = p.2
  | [], p, hp => by simp at hp
  | c :: t, p, hp => by
    rcases (by simpa using hp : p = (c, c) ∨ p ∈ t.zip t) with rfl | hp'
    · rfl
    · exact zip_self_pointwise t p hp'

/-- The timing-safe comparator agrees with string equality. -/
theorem timingSafeEqual_eq_true_iff (a b : String) :
    timingSafeEqual a b = true ↔ a = b := by
  unfold timingSafeEqual
  by_cases h : a.length = b.length
  · have hd : a.data.length = b.data.length := h
    simp only [h, bne_self_eq_false, Bool.false_eq_true, if_false, beq_iff_eq]
    rw [foldl_lor_xor_eq_zero]
    constructor
    · rintro ⟨-, hall⟩
      have hab : a.data = b.data := eq_of_zip_pointwise hd hall
      cases a; cases b
      exact congrArg String.mk hab
    · rintro rfl
      exact ⟨rfl, zip_self_pointwise a.data⟩
  · have hne : a ≠ b := fun e => h (e ▸ rfl)
    simp only [bne_iff_ne, ne_eq, h, not_false_eq_true, if_true]
    simp [hne]



theorem lookup_putEntry_self (l : List (String × Value)) (k : String) (v : Value) :
    List.lookup k (putEntry l k v) = some v := by
  induction l with
  | nil => simp [putEntry, List.lookup]
  | cons p t ih =>
    by_cases h : p.1 = k
    · simp [putEntry, h, List.lookup]
    · have hbeq : (k == p.1) = false := by
        simp [beq_iff_eq]; exact fun e => h e.symm
      simp [putEntry, h, List.lookup, hbeq, ih]

theorem lookup_putEntry_ne (l : List (String × Value)) {k k' : String} (v : Value)
    (h : k ≠ k') : List.lookup k (putEntry l k' v) = List.lookup k l := by
  have hbeq' : (k == k') = false := by simp [beq_iff_eq, h]
  induction l with
  | nil => simp [putEntry, List.lookup, hbeq']
  | cons p t ih =>
    by_cases hp : p.1 = k'
    · subst hp
      have hbeq : (k == p.1) = false := by simp [beq_iff_eq, h]
      simp [putEntry, List.lookup, hbeq]
    · by_cases hk : k = p.1
      · simp [putEntry, hp, List.lookup, hk]
      · have hbeq : (k == p.1) = false := by simp [beq_iff_eq, hk]
        simp [putEntry, hp, List.lookup, hbeq, ih]

theorem lookup_filter_self (l : List (String × Value)) (k : String) :
    List.lookup k (l.filter (fun p => p.1 ≠ k)) = none := by
  induction l with
  | nil => rfl
  | cons p t ih =>
    rw [List.filter_cons]
    by_cases h : p.1 = k
    · rw [if_neg (by simp [h])]
      exact ih
    · rw [if_pos (by simp [h])]
      have hbeq : (k == p.1) = false := by
        simp [beq_iff_eq]; exact fun e => h e.symm
      simp only [List.lookup, hbeq]
      exact ih

theorem lookup_filter_ne (l : List (String × Value)) {k k' : String} (h : k ≠ k') :
    List.lookup k (l.filter (fun p => p.1 ≠ k')) = List.lookup k l := by
  induction l with
  | nil => rfl
  | cons p t ih =>
    rw [List.filter_cons]
    by_cases hp : p.1 = k'
    · rw [if_neg (by simp [hp])]
      have hbeq : (k == p.1) = false := by
        simp [beq_iff_eq]; exact fun e => h (e.trans hp)
      simp only [List.lookup, hbeq]
      exact ih
    · rw [if_pos (by simp [hp])]
      simp only [List.lookup]
      cases hkb : (k == p.1) with
      | true => rfl
      | false => exact ih

theorem mem_keys_of_lookup {l : List (String × Value)} {k : String} {v : Value}
    (h : List.lookup k l = some v) : k ∈ l.map Prod.fst := by
  induction l with
  | nil => simp [List.lookup] at h
  | cons p t ih =>
    by_cases hk : k = p.1
    · simp [hk]
    · have hbeq : (k == p.1) = false := by simp [beq_iff_eq, hk]
      simp [List.lookup, hbeq] at h
      simp [ih h]

theorem lookup_eq_some_iff_mem {l : List (String × Value)} {k : String} {v : Value}
    (hn : (l.map Prod.fst).Nodup) : List.lookup k l = some v ↔ (k, v) ∈ l := by
  induction l with
  | nil => simp [List.lookup]
  | cons p t ih =>
    obtain ⟨hp, ht⟩ := List.nodup_cons.mp hn
    by_cases hk : k = p.1
    · subst hk
      simp only [List.lookup, beq_self_eq_true, List.mem_cons, Option.some.injEq]
      constructor
      · rintro rfl; exact .inl rfl
      · rintro (he | hm)
        · exact congrArg Prod.snd he.symm
        · exact absurd (List.mem_map_of_mem Prod.fst hm) hp
    · have hbeq : (k == p.1) = false := by simp [beq_iff_eq, hk]
      simp only [List.lookup, hbeq, List.mem_cons]
      rw [ih ht]
      constructor
      · exact .inr
      · rintro (he | hm)
        · exact absurd (congrArg Prod.fst he) hk
        · exact hm

theorem lookup_eq_none_iff_not_mem {l : List (String × Value)} {k : String} :
    List.lookup k l = none ↔ k ∉ l.map Prod.fst := by
  induction l with
  | nil => simp [List.lookup]
  | cons p t ih =>
    by_cases hk : k = p.1
    · subst hk
      simp [List.lookup]
    · have hbeq : (k == p.1) = false := by simp [beq_iff_eq, hk]
      simp [List.lookup, hbeq, ih, hk]

theorem lookup_perm {l l' : List (String × Value)} (h : l.Perm l')
    (hn : (l.map Prod.fst).Nodup) (k : String) :
    List.lookup k l = List.lookup k l' := by
  have hn' : (l'.map Prod.fst).Nodup := ((h.map Prod.fst).nodup_iff).mp hn
  cases hl : List.lookup k l with
  | none =>
    have : k ∉ l'.map Prod.fst := fun hm => by
      have := lookup_eq_none_iff_not_mem.mp hl
      exact this ((h.map Prod.fst).mem_iff.mpr hm)
    exact (lookup_eq_none_iff_not_mem.mpr this).symm
  | some v =>
    have hm : (k, v) ∈ l := (lookup_eq_some_iff_mem hn).mp hl
    exact ((lookup_eq_some_iff_mem hn').mpr (h.mem_iff.mp hm)).symm


theorem Storage.get_put_self (s : Storage) (k : String) (v : Value) :
    (s.put k v).get k = some v :=
  lookup_putEntry_self s.entries k v

theorem Storage.get_put_ne (s : Storage) {k k' : String} (v : Value) (h : k ≠ k') :
    (s.put k' v).get k = s.get k :=
  lookup_putEntry_ne s.entries v h

theorem Storage.get_del_self (s : Storage) (k : String) :
    (s.del k).get k = none :=
  lookup_filter_self s.entries k

theorem Storage.get_del_ne (s : Storage) {k k' : String} (h : k ≠ k') :
    (s.del k').get k = s.get k :=
  lookup_filter_ne s.entries h

theorem Storage.putAll_cons (s : Storage) (p : String × Value)
    (t : List (String × Value)) :
    s.putAll (p :: t) = (s.put p.1 p.2).putAll t := rfl

theorem Storage.get_putAll_not_mem (s : Storage) {k : String}
    {data : List (String × Value)} (h : k ∉ data.map Prod.fst) :
    (s.putAll data).get k = s.get k := by
  induction data generalizing s with
  | nil => rfl
  | cons p t ih =>
    rw [Storage.putAll_cons]
    have hk : k ≠ p.1 := fun e => h (by simp [e])
    rw [ih _ (fun hm => h (by simp [hm]))]
    exact s.get_put_ne p.2 hk

theorem Storage.get_putAll_nodup (s : Storage) {data : List (String × Value)}
    (hn : (data.map Prod.fst).Nodup) (k : String) :
    (s.putAll data).get k = (List.lookup k data).or (s.get k) := by
  induction data generalizing s with
  | nil => rfl
  | cons p t ih =>
    obtain ⟨hp, ht⟩ := List.nodup_cons.mp hn
    rw [Storage.putAll_cons, ih _ ht]
    by_cases hk : k = p.1
    · rw [hk]
      have hlt : List.lookup p.1 t = none :=
        lookup_eq_none_iff_not_mem.mpr hp
      simp [hlt, List.lookup, Storage.get_put_self]
    · have hbeq : (k == p.1) = false := by simp [beq_iff_eq, hk]
      simp [List.lookup, hbeq, Storage.get_put_ne _ _ hk]

theorem FROZEN_AT_KEY_ne : FROZEN_AT_KEY ≠ FROZEN_STORAGE_KEY := by
  decide


theorem jsSplit_ne_nil (sep : Char) (l : List Char) : jsSplit sep l ≠ [] := by
  cases l with
  | nil => simp [jsSplit]
  | cons c cs =>
    rw [jsSplit]
    cases h : jsSplit sep cs with
    | nil => simp
    | cons seg rest =>
      by_cases hc : c = sep <;> simp [hc]

theorem jsSplit_of_not_mem (sep : Char) {l : List Char} (h : sep ∉ l) :
    jsSplit sep l = [l] := by
  induction l with
  | nil => rfl
  | cons c cs ih =>
    have hc : c ≠ sep := fun e => h (by simp [e])
    have hcs : sep ∉ cs := fun hm => h (by simp [hm])
    rw [jsSplit, ih hcs]
    simp [hc]

theorem jsSplit_append (sep : Char) (a b : List Char) :
    jsSplit sep (a ++ sep :: b) = jsSplit sep a ++ jsSplit sep b := by
  induction a with
  | nil =>
    cases h : jsSplit sep b with
    | nil => exact absurd h (jsSplit_ne_nil sep b)
    | cons seg rest =>
      simp [jsSplit, h]
  | cons c a ih =>
    rw [List.cons_append, jsSplit, ih]
    cases ha : jsSplit sep a with
    | nil => exact absurd ha (jsSplit_ne_nil sep a)
    | cons s r =>
      rw [jsSplit, ha]
      by_cases hc : c = sep <;> simp [hc]

theorem strDrop_append (a b : String) : strDrop (a ++ b) a.length = b := by
  show ((a ++ b).data.drop a.data.length).asString = b
  rw [String.data_append, List.drop_left]
  exact String.asString_toList b

theorem strStartsWith_append (a b : String) : strStartsWith (a ++ b) a = true := by
  show a.data.isPrefixOf (a ++ b).data = true
  rw [String.data_append, List.isPrefixOf_iff_prefix]
  exact List.prefix_append a.data b.data


theorem data_asString (l : List Char) : l.asString.data = l :=
  List.toList_asString l

theorem getLast_filter_concat (L : List (List Char)) {op : List Char}
    (hne : op ≠ []) :
    (((L ++ [op]).map List.asString).filter (fun seg => seg ≠ "")).getLast? =
      some op.asString := by
  have hop : op.asString ≠ "" := by
    intro e
    apply hne
    have h2 := congrArg String.toList e
    simpa [List.toList_asString] using h2
  rw [List.map_append, List.filter_append]
  simp only [List.map_cons, List.map_nil]
  rw [List.filter_cons, if_pos (by simpa using hop), List.filter_nil]
  exact List.getLast?_concat _

theorem jsSplit_cons_sep (sep : Char) (b : List Char) :
    jsSplit sep (sep :: b) = [] :: jsSplit sep b := by
  have h := jsSplit_append sep [] b
  simpa [jsSplit] using h

theorem extractOperation_base (b op : String) (hsep : '/' ∉ op.data)
    (hne : op.data ≠ []) :
    extractOperation b (b ++ "/" ++ op) = "/" ++ op := by
  have hdata : (b ++ "/" ++ op).data = b.data ++ ('/' :: op.data) := by
    have hslash : ("/" : String).data = ['/'] := rfl
    simp [String.data_append, hslash]
  unfold extractOperation jsSplitSlash strDrop
  rw [show b.length = b.data.length from rfl, hdata, List.drop_left]
  dsimp only
  rw [data_asString]
  rw [jsSplit_cons_sep '/' op.data, jsSplit_of_not_mem '/' hsep]
  rw [show ([] :: [op.data] : List (List Char)) = [[]] ++ [op.data] from rfl]
  rw [getLast_filter_concat [[]] hne]
  rw [show op.data.asString = op from String.asString_toList op]

theorem extractOperation_seg (b n op : String) (hsep : '/' ∉ op.data)
    (hne : op.data ≠ []) :
    extractOperation b (b ++ "/" ++ n ++ "/" ++ op) = "/" ++ op := by
  have hdata : (b ++ "/" ++ n ++ "/" ++ op).data =
      b.data ++ ('/' :: (n.data ++ '/' :: op.data)) := by
    have hslash : ("/" : String).data = ['/'] := rfl
    simp [String.data_append, hslash]
  unfold extractOperation jsSplitSlash strDrop
  rw [show b.length = b.data.length from rfl, hdata, List.drop_left]
  dsimp only
  rw [data_asString]
  rw [jsSplit_cons_sep '/' (n.data ++ '/' :: op.data),
    jsSplit_append '/' n.data op.data, jsSplit_of_not_mem '/' hsep]
  rw [← List.cons_append]
  rw [getLast_filter_concat ([] :: jsSplit '/' n.data) hne]
  rw [show op.data.asString = op from String.asString_toList op]


theorem routeAdmin_path_independent (st : Storage) (op now m p₁ p₂ : String)
    (xk qk : Option String) (bd : ReqBody) :
    routeAdmin st ⟨m, p₁, xk, qk, bd⟩ op now =
      routeAdmin st ⟨m, p₂, xk, qk, bd⟩ op now := rfl

theorem authPasses_iff (opts : AdminHooksOptions) (req : Request) :
    authPasses opts req = true ↔
      ¬(opts.requireAuth = true ∧
        ((req.xAdminKey.getD "").length ≠ (opts.adminKey.getD "").length ∨
          timingSafeEqual (req.xAdminKey.getD "") (opts.adminKey.getD "") = false)) := by
  unfold authPasses
  cases hra : opts.requireAuth with
  | false => simp [hra]
  | true =>
    simp only [hra, Bool.not_eq_true', Bool.true_and, true_and]
    cases htse : timingSafeEqual (req.xAdminKey.getD "") (opts.adminKey.getD "") with
    | false => simp [htse]
    | true =>
      simp only [htse, Bool.not_true, Bool.or_false]
      simp [bne_iff_ne]

theorem handleAdminRequest_route (opts : AdminHooksOptions) (st : Storage)
    (req : Request) (now : String)
    (hp : strStartsWith req.path (basePathOf opts) = true)
    (ha : authPasses opts req = true) :
    handleAdminRequest opts st req now =
      (some (routeAdmin st req (extractOperation (basePathOf opts) req.path) now).1,
        (routeAdmin st req (extractOperation (basePathOf opts) req.path) now).2) := by
  unfold handleAdminRequest
  rw [if_neg (by simp [hp])]
  rw [if_neg ((authPasses_iff opts req).mp ha)]

theorem handleAdminRequest_unauthorized (opts : AdminHooksOptions) (st : Storage)
    (req : Request) (now : String)
    (hp : strStartsWith req.path (basePathOf opts) = true)
    (ha : authPasses opts req = false) :
    handleAdminRequest opts st req now =
      (some ⟨401, .errorMsg "Unauthorized"⟩, st) := by
  unfold handleAdminRequest
  rw [if_neg (by simp [hp])]
  rw [if_pos (by
    by_contra hc
    rw [(authPasses_iff opts req).mpr hc] at ha
    exact Bool.true_eq_false.mp ha)]

theorem authPasses_key_iff (opts : AdminHooksOptions) (req : Request) {K : String}
    (hra : opts.requireAuth = true) (hk : opts.adminKey = some K) :
    authPasses opts req = true ↔ req.xAdminKey.getD "" = K := by
  rw [authPasses_iff]
  simp only [hra, hk, Option.getD_some, true_and, not_or, not_not]
  constructor
  · intro h
    push_neg at h
    exact (timingSafeEqual_eq_true_iff _ _).mp
      (eq_true_of_ne_false h.2)
  · intro h
    rw [h]
    push_neg
    refine ⟨rfl, ?_⟩
    rw [(timingSafeEqual_eq_true_iff K K).mpr rfl]
    simp


theorem routeAdmin_unmatched (st : Storage) (req : Request) (op now : String)
    (h : ¬ RouteMatch op req.method) :
    routeAdmin st req op now = (⟨404, .errorMsg "Unknown admin endpoint"⟩, st) := by
  unfold RouteMatch at h
  simp only [not_or] at h
  obtain ⟨h1, h2, h3, h4, h5, h6, h7, h8, h9, h10, h11, h12, h13⟩ := h
  unfold routeAdmin
  rw [if_neg h1, if_neg h2, if_neg h3, if_neg h4, if_neg h5, if_neg h6,
    if_neg h7, if_neg h8, if_neg h9, if_neg h10, if_neg h11, if_neg h12,
    if_neg h13]


theorem string_eq_of_data_eq {s t : String} (h : s.data = t.data) : s = t := by
  have h1 := congrArg List.asString h
  rwa [show s.data.asString = s from String.asString_toList s,
    show t.data.asString = t from String.asString_toList t] at h1

theorem strAppend_assoc (a b c : String) : a ++ b ++ c = a ++ (b ++ c) :=
  string_eq_of_data_eq (by simp [String.data_append])

/-- C2: while the frozen flag is truthy, `adminPut` and `adminDelete` on any
key other than the reserved frozen-flag key, and `adminImport` on any data,
fail with the frozen error.  The guard runs strictly before the mutating
storage call, which the embedding reflects by returning `Except.error`
carrying no updated storage: the state the caller holds is unchanged. -/
theorem frozen_blocks_mutations (st : Storage) (h : isFrozenTruthy st = true) :
    (∀ k v, k ≠ FROZEN_STORAGE_KEY →
      adminPut st k v =
        .error "Instance is frozen. Unfreeze before making changes.") ∧
    (∀ k, k ≠ FROZEN_STORAGE_KEY →
      adminDelete st k =
        .error "Instance is frozen. Unfreeze before making changes.") ∧
    (∀ data, adminImport st data =
      .error "Instance is frozen. Unfreeze before importing data.") := by
  refine ⟨fun k v hk => ?_, fun k hk => ?_, fun data => ?_⟩
  · simp [adminPut, hk, h]
  · simp [adminDelete, hk, h]
  · simp [adminImport, h]

theorem frozen_blocks_mutations_witness :
    isFrozenTruthy ⟨[(FROZEN_STORAGE_KEY, Value.vBool true)], none⟩ = true ∧
    adminPut ⟨[(FROZEN_STORAGE_KEY, Value.vBool true)], none⟩ "a" (Value.vNum 1) =
      .error "Instance is frozen. Unfreeze before making changes." :=
  ⟨by decide,
   (frozen_blocks_mutations ⟨[(FROZEN_STORAGE_KEY, Value.vBool true)], none⟩
      (by decide)).1 "a" (Value.vNum 1) (by decide)⟩

/-- C4 counterexample: in a frozen state, `adminPut` and `adminDelete` on the
reserved frozen-at key DO fail with the frozen error — only the frozen-flag
key bypasses the guard, so the claim that both reserved keys are exempt is
false. -/
theorem reserved_at_key_guard_cex :
    adminPut ⟨[(FROZEN_STORAGE_KEY, Value.vBool true),
        (FROZEN_AT_KEY, Value.vStr "2026-01-01T00:00:00Z")], none⟩
      FROZEN_AT_KEY (Value.vStr "2026-02-02T00:00:00Z") =
      .error "Instance is frozen. Unfreeze before making changes." ∧
    adminDelete ⟨[(FROZEN_STORAGE_KEY, Value.vBool true),
        (FROZEN_AT_KEY, Value.vStr "2026-01-01T00:00:00Z")], none⟩
      FROZEN_AT_KEY =
      .error "Instance is frozen. Unfreeze before making changes." :=
  ⟨rfl, rfl⟩

/-- C4 (amended): only the frozen-flag reserved key is exempt from the freeze
guard — `adminPut`/`adminDelete` on it never fail in any state — while the
frozen-at reserved key is subject to the guard: when the frozen flag is
truthy, `adminPut`/`adminDelete` on the frozen-at key fail with the frozen
error. -/
theorem flag_key_exempt_from_guard (st : Storage) (v : Value) :
    adminPut st FROZEN_STORAGE_KEY v = .ok (st.put FROZEN_STORAGE_KEY v) ∧
    adminDelete st FROZEN_STORAGE_KEY = .ok (st.del FROZEN_STORAGE_KEY) ∧
    (isFrozenTruthy st = true →
      adminPut st FROZEN_AT_KEY v =
        .error "Instance is frozen. Unfreeze before making changes." ∧
      adminDelete st FROZEN_AT_KEY =
        .error "Instance is frozen. Unfreeze before making changes.") := by
  refine ⟨?_, ?_, fun h => ⟨?_, ?_⟩⟩
  · simp [adminPut]
  · simp [adminDelete]
  · simp [adminPut, FROZEN_AT_KEY_ne, h]
  · simp [adminDelete, FROZEN_AT_KEY_ne, h]

theorem flag_key_exempt_from_guard_witness :
    adminPut ⟨[(FROZEN_STORAGE_KEY, Value.vBool true)], none⟩
        FROZEN_STORAGE_KEY (Value.vBool false) =
      .ok (Storage.put ⟨[(FROZEN_STORAGE_KEY, Value.vBool true)], none⟩
        FROZEN_STORAGE_KEY (Value.vBool false)) ∧
    isFrozenTruthy ⟨[(FROZEN_STORAGE_KEY, Value.vBool true)], none⟩ = true ∧
    adminPut ⟨[(FROZEN_STORAGE_KEY, Value.vBool true)], none⟩
        FROZEN_AT_KEY (Value.vStr "t") =
      .error "Instance is frozen. Unfreeze before making changes." :=
  ⟨(flag_key_exempt_from_guard ⟨[(FROZEN_STORAGE_KEY, Value.vBool true)], none⟩
      (Value.vBool false)).1,
   by decide,
   ((flag_key_exempt_from_guard ⟨[(FROZEN_STORAGE_KEY, Value.vBool true)], none⟩
      (Value.vStr "t")).2.2 (by decide)).1⟩

/-- C5: when the frozen flag is not truthy, `adminPut` succeeds for every key
and value, and `adminGet` of that key on the resulting state returns the
stored value. -/
theorem put_then_get (st : Storage) (k : String) (v : Value)
    (h : isFrozenTruthy st = false) :
    adminPut st k v = .ok (st.put k v) ∧ adminGet (st.put k v) k = some v := by
  constructor
  · by_cases hk : k = FROZEN_STORAGE_KEY
    · simp [adminPut, hk]
    · simp [adminPut, hk, h]
  · exact Storage.get_put_self st k v

theorem put_then_get_witness :
    adminPut Storage.empty "a" (Value.vNum 1) =
      .ok (Storage.empty.put "a" (Value.vNum 1)) ∧
    adminGet (Storage.empty.put "a" (Value.vNum 1)) "a" = some (Value.vNum 1) :=
  put_then_get Storage.empty "a" (Value.vNum 1) (by decide)

/-- C10: the reserved freeze keys are ordinary entries — after `adminFreeze`,
`adminExport` includes both reserved keys with their values in its data
mapping and counts them in `keyCount`, and `adminList` (KV backend) includes
them among the returned keys. -/
theorem freeze_keys_ordinary (st : Storage) (now now' : String) :
    List.lookup FROZEN_STORAGE_KEY (adminExport (adminFreeze st now).1 now').data =
      some (Value.vBool true) ∧
    List.lookup FROZEN_AT_KEY (adminExport (adminFreeze st now).1 now').data =
      some (Value.vStr now) ∧
    (adminExport (adminFreeze st now).1 now').keyCount =
      (adminExport (adminFreeze st now).1 now').data.length ∧
    FROZEN_STORAGE_KEY ∈ adminList (adminFreeze st now).1 ∧
    FROZEN_AT_KEY ∈ adminList (adminFreeze st now).1 := by
  have h1 : ((adminFreeze st now).1).get FROZEN_STORAGE_KEY = some (.vBool true) := by
    unfold adminFreeze
    rw [Storage.get_put_ne _ _ (Ne.symm FROZEN_AT_KEY_ne), Storage.get_put_self]
  have h2 : ((adminFreeze st now).1).get FROZEN_AT_KEY = some (.vStr now) :=
    Storage.get_put_self _ _ _
  exact ⟨h1, h2, rfl, mem_keys_of_lookup h1, mem_keys_of_lookup h2⟩


/-- C3 counterexample: the freeze-record invariant holds in the empty state,
but `adminPut` of the frozen-flag reserved key (which bypasses the guard)
sets the flag to `true` without writing the frozen-at key, so the invariant
is not preserved by every admin operation. -/
theorem frozenInv_cex :
    frozenInv Storage.empty = true ∧
    adminPut Storage.empty FROZEN_STORAGE_KEY (Value.vBool true) =
      .ok ⟨[(FROZEN_STORAGE_KEY, Value.vBool true)], none⟩ ∧
    frozenInv ⟨[(FROZEN_STORAGE_KEY, Value.vBool true)], none⟩ = false :=
  ⟨rfl, rfl, rfl⟩

/-- C3 (amended): the freeze-record invariant (frozen-at present iff the
frozen flag holds `true`) holds in the empty state and is preserved by
`adminFreeze`, `adminUnfreeze`, the read-only operations (which do not touch
the entries), and by `adminPut`/`adminDelete` whose target key is neither
reserved freeze key and `adminImport` whose data mentions neither reserved
freeze key; it is not preserved by mutations that target the reserved keys
directly. -/
theorem frozenInv_preserved (st : Storage) (h : frozenInv st = true) :
    frozenInv Storage.empty = true ∧
    (∀ now, frozenInv (adminFreeze st now).1 = true) ∧
    frozenInv (adminUnfreeze st).1 = true ∧
    (∀ k v st', k ≠ FROZEN_STORAGE_KEY → k ≠ FROZEN_AT_KEY →
      adminPut st k v = .ok st' → frozenInv st' = true) ∧
    (∀ k st', k ≠ FROZEN_STORAGE_KEY → k ≠ FROZEN_AT_KEY →
      adminDelete st k = .ok st' → frozenInv st' = true) ∧
    (∀ data st', FROZEN_STORAGE_KEY ∉ data.map Prod.fst →
      FROZEN_AT_KEY ∉ data.map Prod.fst →
      adminImport st data = .ok st' → frozenInv st' = true) := by
  refine ⟨rfl, fun now => ?_, ?_, fun k v st' hk1 hk2 hok => ?_,
    fun k st' hk1 hk2 hok => ?_, fun data st' hm1 hm2 hok => ?_⟩
  · have hA : ((adminFreeze st now).1).get FROZEN_AT_KEY = some (.vStr now) :=
      Storage.get_put_self _ _ _
    have hF : ((adminFreeze st now).1).get FROZEN_STORAGE_KEY =
        some (.vBool true) := by
      unfold adminFreeze
      rw [Storage.get_put_ne _ _ (Ne.symm FROZEN_AT_KEY_ne), Storage.get_put_self]
    simp [frozenInv, hA, hF]
  · have hA : ((adminUnfreeze st).1).get FROZEN_AT_KEY = none :=
      Storage.get_del_self _ _
    have hF : ((adminUnfreeze st).1).get FROZEN_STORAGE_KEY = none := by
      unfold adminUnfreeze
      rw [Storage.get_del_ne _ (Ne.symm FROZEN_AT_KEY_ne), Storage.get_del_self]
    simp [frozenInv, hA, hF]
  · have hst' : st' = st.put k v := by
      unfold adminPut at hok
      rw [if_pos hk1] at hok
      cases hfz : isFrozenTruthy st with
      | true => rw [hfz] at hok; simp at hok
      | false =>
        rw [hfz] at hok
        simpa using hok.symm
    subst hst'
    rw [frozenInv, Storage.get_put_ne _ _ (Ne.symm hk2),
      Storage.get_put_ne _ _ (Ne.symm hk1)]
    exact h
  · have hst' : st' = st.del k := by
      unfold adminDelete at hok
      rw [if_pos hk1] at hok
      cases hfz : isFrozenTruthy st with
      | true => rw [hfz] at hok; simp at hok
      | false =>
        rw [hfz] at hok
        simpa using hok.symm
    subst hst'
    rw [frozenInv, Storage.get_del_ne _ (Ne.symm hk2),
      Storage.get_del_ne _ (Ne.symm hk1)]
    exact h
  · have hst' : st' = st.putAll data := by
      unfold adminImport at hok
      cases hfz : isFrozenTruthy st with
      | true => rw [hfz] at hok; simp at hok
      | false =>
        rw [hfz] at hok
        simpa using hok.symm
    subst hst'
    rw [frozenInv, Storage.get_putAll_not_mem _ hm2,
      Storage.get_putAll_not_mem _ hm1]
    exact h

theorem frozenInv_preserved_witness :
    frozenInv ⟨[("x", Value.vNull)], none⟩ = true :=
  (frozenInv_preserved Storage.empty (by decide)).2.2.2.1 "x" Value.vNull
    ⟨[("x", Value.vNull)], none⟩ (by decide) (by decide) rfl


/-- C6: exporting an unfrozen well-formed store and importing the exported
data mapping — in any enumeration order — into a freshly cleared store
succeeds and reproduces exactly the original key/value mapping; the export's
`keyCount` equals the number of pairs in its data mapping. -/
theorem export_import_roundtrip (st : Storage) (now : String)
    (l : List (String × Value)) (hwf : st.Wf)
    (_hfr : isFrozenTruthy st = false)
    (hperm : l.Perm (adminExport st now).data) :
    adminImport Storage.empty l = .ok (Storage.empty.putAll l) ∧
    (∀ k, (Storage.empty.putAll l).get k = st.get k) ∧
    (adminExport st now).keyCount = (adminExport st now).data.length := by
  refine ⟨rfl, fun k => ?_, rfl⟩
  have hl : (l.map Prod.fst).Nodup := ((hperm.map Prod.fst).nodup_iff).mpr hwf
  rw [Storage.get_putAll_nodup _ hl k, lookup_perm hperm hl k]
  show (List.lookup k st.entries).or (Storage.empty.get k) = st.get k
  rw [show st.get k = List.lookup k st.entries from rfl]
  cases hk : List.lookup k st.entries with
  | none => rfl
  | some v => rfl

theorem export_import_roundtrip_witness :
    (Storage.empty.putAll [("b", Value.vStr "x"), ("a", Value.vNum 1)]).get "a" =
      Storage.get ⟨[("a", Value.vNum 1), ("b", Value.vStr "x")], none⟩ "a" :=
  (export_import_roundtrip ⟨[("a", Value.vNum 1), ("b", Value.vStr "x")], none⟩
    "2026-01-01T00:00:00Z" [("b", Value.vStr "x"), ("a", Value.vNum 1)]
    (by decide) (by decide) (List.Perm.swap _ _ _)).2.1 "a"

/-- C1: with `requireAuth` set and an admin key `K` configured, an
admin-path request proceeds past authentication to the router exactly when
the supplied `X-Admin-Key` credential (defaulting to the empty string)
equals `K`; otherwise the handler returns 401 `{error:"Unauthorized"}` with
the storage state untouched. -/
theorem auth_exact_match (opts : AdminHooksOptions) (st : Storage)
    (req : Request) (now K : String) (hra : opts.requireAuth = true)
    (hk : opts.adminKey = some K)
    (hp : strStartsWith req.path (basePathOf opts) = true) :
    (req.xAdminKey.getD "" = K →
      handleAdminRequest opts st req now =
        (some (routeAdmin st req (extractOperation (basePathOf opts) req.path) now).1,
          (routeAdmin st req (extractOperation (basePathOf opts) req.path) now).2)) ∧
    (req.xAdminKey.getD "" ≠ K →
      handleAdminRequest opts st req now =
        (some ⟨401, .errorMsg "Unauthorized"⟩, st)) := by
  constructor
  · intro he
    exact handleAdminRequest_route _ _ _ _ hp
      ((authPasses_key_iff _ _ hra hk).mpr he)
  · intro hne
    refine handleAdminRequest_unauthorized _ _ _ _ hp ?_
    cases hap : authPasses opts req with
    | false => rfl
    | true => exact absurd ((authPasses_key_iff _ _ hra hk).mp hap) hne

theorem auth_exact_match_witness :
    handleAdminRequest ⟨none, true, some "secret"⟩ Storage.empty
        ⟨"GET", "/admin/list", some "wrong", none, {}⟩ "T" =
      (some ⟨401, .errorMsg "Unauthorized"⟩, Storage.empty) :=
  (auth_exact_match ⟨none, true, some "secret"⟩ Storage.empty
    ⟨"GET", "/admin/list", some "wrong", none, {}⟩ "T" "secret" rfl rfl
    (by decide)).2 (by decide)

/-- C9: with `requireAuth` set but no admin key configured, an admin-path
request carrying no `X-Admin-Key` header passes authentication (both
credential and expected key default to the empty string, which compare
equal) and reaches the router — no 401 is returned. -/
theorem auth_missing_key_passes (opts : AdminHooksOptions) (st : Storage)
    (req : Request) (now : String) (hra : opts.requireAuth = true)
    (hk : opts.adminKey = none) (hx : req.xAdminKey = none)
    (hp : strStartsWith req.path (basePathOf opts) = true) :
    handleAdminRequest opts st req now =
      (some (routeAdmin st req (extractOperation (basePathOf opts) req.path) now).1,
        (routeAdmin st req (extractOperation (basePathOf opts) req.path) now).2) := by
  apply handleAdminRequest_route _ _ _ _ hp
  rw [authPasses, hra, hk, hx]
  rfl

theorem auth_missing_key_passes_witness :
    handleAdminRequest ⟨none, true, none⟩ Storage.empty
        ⟨"GET", "/admin/list", none, none, {}⟩ "T" =
      (some (routeAdmin Storage.empty ⟨"GET", "/admin/list", none, none, {}⟩
          (extractOperation (basePathOf ⟨none, true, none⟩) "/admin/list") "T").1,
        (routeAdmin Storage.empty ⟨"GET", "/admin/list", none, none, {}⟩
          (extractOperation (basePathOf ⟨none, true, none⟩) "/admin/list") "T").2) :=
  auth_missing_key_passes ⟨none, true, none⟩ Storage.empty
    ⟨"GET", "/admin/list", none, none, {}⟩ "T" rfl rfl rfl (by decide)


/-- C7: the router selects the operation from the last non-empty path
segment only — `{base}/get` and `{base}/{anyInstanceName}/get` extract the
same `/get` selector and the handler treats the two requests identically —
and any request under the base path whose (selector, method) pair matches no
dispatch-table entry yields 404 `{error:"Unknown admin endpoint"}`. -/
theorem routing_last_segment (opts : AdminHooksOptions) (st : Storage)
    (now : String) :
    (∀ n : String,
      extractOperation (basePathOf opts) (basePathOf opts ++ "/get") = "/get" ∧
      extractOperation (basePathOf opts)
        (basePathOf opts ++ "/" ++ n ++ "/get") = "/get" ∧
      ∀ (m : String) (xk qk : Option String) (bd : ReqBody),
        handleAdminRequest opts st ⟨m, basePathOf opts ++ "/get", xk, qk, bd⟩ now =
          handleAdminRequest opts st
            ⟨m, basePathOf opts ++ "/" ++ n ++ "/get", xk, qk, bd⟩ now) ∧
    (∀ req : Request, strStartsWith req.path (basePathOf opts) = true →
      authPasses opts req = true →
      ¬ RouteMatch (extractOperation (basePathOf opts) req.path) req.method →
      handleAdminRequest opts st req now =
        (some ⟨404, .errorMsg "Unknown admin endpoint"⟩, st)) := by
  have hsep : '/' ∉ ("get" : String).data := by decide
  have hnn : ("get" : String).data ≠ [] := by decide
  have hlit : ("/" : String) ++ "get" = "/get" := by decide
  have e1 : basePathOf opts ++ "/get" = basePathOf opts ++ "/" ++ "get" := by
    rw [strAppend_assoc, hlit]
  have hx1 : extractOperation (basePathOf opts)
      (basePathOf opts ++ "/get") = "/get" := by
    rw [e1, extractOperation_base _ _ hsep hnn]
    exact hlit
  have e2 : ∀ n : String, basePathOf opts ++ "/" ++ n ++ "/get" =
      basePathOf opts ++ "/" ++ n ++ "/" ++ "get" := fun n => by
    rw [strAppend_assoc (basePathOf opts ++ "/" ++ n), hlit]
  have hx2 : ∀ n : String, extractOperation (basePathOf opts)
      (basePathOf opts ++ "/" ++ n ++ "/get") = "/get" := fun n => by
    rw [e2 n, extractOperation_seg _ _ _ hsep hnn]
    exact hlit
  constructor
  · intro n
    refine ⟨hx1, hx2 n, fun m xk qk bd => ?_⟩
    have hp1 : strStartsWith (basePathOf opts ++ "/get")
        (basePathOf opts) = true := strStartsWith_append _ _
    have hp2 : strStartsWith (basePathOf opts ++ "/" ++ n ++ "/get")
        (basePathOf opts) = true := by
      rw [strAppend_assoc, strAppend_assoc]
      exact strStartsWith_append _ _
    cases hap : authPasses opts ⟨m, basePathOf opts ++ "/get", xk, qk, bd⟩ with
    | false =>
      have hap2 : authPasses opts
          ⟨m, basePathOf opts ++ "/" ++ n ++ "/get", xk, qk, bd⟩ = false := hap
      rw [handleAdminRequest_unauthorized _ _ _ _ hp1 hap,
        handleAdminRequest_unauthorized _ _ _ _ hp2 hap2]
    | true =>
      have hap2 : authPasses opts
          ⟨m, basePathOf opts ++ "/" ++ n ++ "/get", xk, qk, bd⟩ = true := hap
      rw [handleAdminRequest_route _ _ _ _ hp1 hap,
        handleAdminRequest_route _ _ _ _ hp2 hap2]
      dsimp only
      rw [hx1, hx2 n,
        routeAdmin_path_independent st "/get" now m (basePathOf opts ++ "/get")
          (basePathOf opts ++ "/" ++ n ++ "/get") xk qk bd]
  · intro req hp ha hnr
    rw [handleAdminRequest_route _ _ _ _ hp ha,
      routeAdmin_unmatched _ _ _ _ hnr]

theorem routing_last_segment_witness :
    extractOperation "/admin" ("/admin" ++ "/" ++ "MyInstance" ++ "/get") = "/get" ∧
    handleAdminRequest ⟨none, false, none⟩ Storage.empty
        ⟨"GET", "/admin/unknown", none, none, {}⟩ "T" =
      (some ⟨404, .errorMsg "Unknown admin endpoint"⟩, Storage.empty) :=
  ⟨((routing_last_segment ⟨none, false, none⟩ Storage.empty "T").1 "MyInstance").2.1,
   (routing_last_segment ⟨none, false, none⟩ Storage.empty "T").2
     ⟨"GET", "/admin/unknown", none, none, {}⟩ (by decide) (by decide) (by decide)⟩


/-- C8 counterexample: while the frozen flag is truthy, a POST put whose key
is the reserved frozen-flag key passes the `!body.key` check, bypasses the
freeze guard, and responds 200 `{success:true}` (here the write re-stores the
same flag value, leaving the entries unchanged); a POST put with an empty key
responds 400 `{error:"Missing key in body"}` without invoking the operation.
So "POST put of any key/value while frozen yields 500 with the frozen error"
is false at these inputs. -/
theorem frozen_put_500_cex :
    handleAdminRequest ⟨none, false, none⟩
        ⟨[(FROZEN_STORAGE_KEY, Value.vBool true)], none⟩
        ⟨"POST", "/admin/put", none, none,
          { key := some FROZEN_STORAGE_KEY, value := Value.vBool true }⟩ "T" =
      (some ⟨200, .success⟩,
        ⟨[(FROZEN_STORAGE_KEY, Value.vBool true)], none⟩) ∧
    handleAdminRequest ⟨none, false, none⟩
        ⟨[(FROZEN_STORAGE_KEY, Value.vBool true)], none⟩
        ⟨"POST", "/admin/put", none, none,
          { key := some "", value := Value.vNum 1 }⟩ "T" =
      (some ⟨400, .errorMsg "Missing key in body"⟩,
        ⟨[(FROZEN_STORAGE_KEY, Value.vBool true)], none⟩) :=
  ⟨rfl, rfl⟩

/-- C8 (amended): a failure raised by the dispatched operation
(put/delete/import/sql, including the frozen-guard failure) makes
`handleAdminRequest` respond 500 with `{error: message}`, the operation's
message string verbatim and the storage unchanged; in particular a POST put
of a non-empty key other than the reserved frozen-flag key while the frozen
flag is truthy yields 500
`{error:"Instance is frozen. Unfreeze before making changes."}`.  (A put of
the reserved flag key bypasses the guard and succeeds with 200; an empty or
missing key yields 400 without invoking the operation.) -/
theorem op_failure_500 (opts : AdminHooksOptions) (st : Storage)
    (req : Request) (now : String)
    (hp : strStartsWith req.path (basePathOf opts) = true)
    (ha : authPasses opts req = true) (hm : req.method = "POST") :
    (∀ k msg, extractOperation (basePathOf opts) req.path = "/put" →
      req.body.key = some k → k ≠ "" →
      adminPut st k req.body.value = .error msg →
      handleAdminRequest opts st req now = (some ⟨500, .errorMsg msg⟩, st)) ∧
    (∀ k msg, extractOperation (basePathOf opts) req.path = "/delete" →
      req.body.key = some k → k ≠ "" →
      adminDelete st k = .error msg →
      handleAdminRequest opts st req now = (some ⟨500, .errorMsg msg⟩, st)) ∧
    (∀ d msg, extractOperation (basePathOf opts) req.path = "/import" →
      req.body.data = some d →
      adminImport st d = .error msg →
      handleAdminRequest opts st req now = (some ⟨500, .errorMsg msg⟩, st)) ∧
    (∀ q msg, extractOperation (basePathOf opts) req.path = "/sql" →
      req.body.query = some q → q ≠ "" →
      adminSql q = .error msg →
      handleAdminRequest opts st req now = (some ⟨500, .errorMsg msg⟩, st)) ∧
    (∀ k, extractOperation (basePathOf opts) req.path = "/put" →
      req.body.key = some k → k ≠ "" →
      k ≠ FROZEN_STORAGE_KEY → isFrozenTruthy st = true →
      handleAdminRequest opts st req now =
        (some ⟨500,
          .errorMsg "Instance is frozen. Unfreeze before making changes."⟩, st)) := by
  have hput : ∀ k msg, extractOperation (basePathOf opts) req.path = "/put" →
      req.body.key = some k → k ≠ "" →
      adminPut st k req.body.value = .error msg →
      handleAdminRequest opts st req now = (some ⟨500, .errorMsg msg⟩, st) := by
    intro k msg hop hkey hkne herr
    rw [handleAdminRequest_route _ _ _ _ hp ha, hop]
    have hr : routeAdmin st req "/put" now = (⟨500, .errorMsg msg⟩, st) := by
      unfold routeAdmin
      rw [if_neg (by rw [hm]; decide), if_neg (by rw [hm]; decide),
        if_pos ⟨rfl, hm⟩, hkey]
      dsimp only
      rw [if_neg hkne, herr]
    rw [hr]
  refine ⟨hput, ?_, ?_, ?_, ?_⟩
  · intro k msg hop hkey hkne herr
    rw [handleAdminRequest_route _ _ _ _ hp ha, hop]
    have hr : routeAdmin st req "/delete" now = (⟨500, .errorMsg msg⟩, st) := by
      unfold routeAdmin
      rw [if_neg (by rw [hm]; decide), if_neg (by rw [hm]; decide),
        if_neg (by rw [hm]; decide), if_neg (by rw [hm]; decide),
        if_neg (by rw [hm]; decide), if_neg (by rw [hm]; decide),
        if_pos ⟨rfl, hm⟩, hkey]
      dsimp only
      rw [if_neg hkne, herr]
    rw [hr]
  · intro d msg hop hdata herr
    rw [handleAdminRequest_route _ _ _ _ hp ha, hop]
    have hr : routeAdmin st req "/import" now = (⟨500, .errorMsg msg⟩, st) := by
      unfold routeAdmin
      rw [if_neg (by rw [hm]; decide), if_neg (by rw [hm]; decide),
        if_neg (by rw [hm]; decide), if_neg (by rw [hm]; decide),
        if_neg (by rw [hm]; decide), if_neg (by rw [hm]; decide),
        if_neg (by rw [hm]; decide), if_neg (by rw [hm]; decide),
        if_neg (by rw [hm]; decide), if_neg (by rw [hm]; decide),
        if_neg (by rw [hm]; decide), if_neg (by rw [hm]; decide),
        if_pos ⟨rfl, hm⟩, hdata]
      dsimp only
      rw [herr]
    rw [hr]
  · intro q msg hop hq hqne herr
    rw [handleAdminRequest_route _ _ _ _ hp ha, hop]
    have hr : routeAdmin st req "/sql" now = (⟨500, .errorMsg msg⟩, st) := by
      unfold routeAdmin
      rw [if_neg (by rw [hm]; decide), if_neg (by rw [hm]; decide),
        if_neg (by rw [hm]; decide), if_neg (by rw [hm]; decide),
        if_neg (by rw [hm]; decide), if_neg (by rw [hm]; decide),
        if_neg (by rw [hm]; decide),
        if_pos ⟨rfl, hm⟩, hq]
      dsimp only
      rw [if_neg hqne, herr]
    rw [hr]
  · intro k hop hkey hkne hkF hfz
    refine hput k _ hop hkey hkne ?_
    simp [adminPut, hkF, hfz]

theorem op_failure_500_witness :
    handleAdminRequest ⟨none, false, none⟩
        ⟨[(FROZEN_STORAGE_KEY, Value.vBool true)], none⟩
        ⟨"POST", "/admin/put", none, none,
          { key := some "a", value := Value.vNum 1 }⟩ "T" =
      (some ⟨500,
        .errorMsg "Instance is frozen. Unfreeze before making changes."⟩,
       ⟨[(FROZEN_STORAGE_KEY, Value.vBool true)], none⟩) :=
  (op_failure_500 ⟨none, false, none⟩
    ⟨[(FROZEN_STORAGE_KEY, Value.vBool true)], none⟩
    ⟨"POST", "/admin/put", none, none,
      { key := some "a", value := Value.vNum 1 }⟩ "T"
    (by decide) (by decide) rfl).2.2.2.2 "a" (by decide) rfl
    (by decide) (by decide) (by decide)

end AdminHooks
